import Mathlib

/-!
Verification of the Quiz Distribution & Moderation Engine (src/bot.py).

The Python source is shallowly embedded: pure methods of `QuizBot` become Lean
functions, stateful methods become explicit state-passing functions, `random.choice`
becomes an explicit index oracle (`pick`, used modulo the list length), per-group
Telegram delivery failures become a Boolean oracle over chat ids, and the one
store write that the scheduler path does not guard with a try/except is modelled
by an `Except` result with a Boolean store-failure oracle.  Python `str.lower`
is modelled as a per-character lowercase map on the underlying character list
(the questions and timestamps involved are ASCII), Python's `in` substring test
as a contiguous-sublist check, and Python's lexicographic string comparison as
lexicographic comparison of code points.  Decimal literals parsed by
`parse_time_input` are modelled exactly as rationals (numerator and a count of
fraction digits) rather than IEEE floats; on the inputs considered the two
agree.
-/

namespace QuizBot

/-- Python `str.lower` on the character list of a string (ASCII-faithful). -/
def pyLower (s : String) : List Char := s.data.map Char.toLower

/-- Python's substring operator: `containsSub hay needle` is `needle in hay`. -/
def containsSub : List Char → List Char → Bool
  | [], needle => needle.isEmpty
  | h :: t, needle => needle.isPrefixOf (h :: t) || containsSub t needle

/-- Python's lexicographic `<` on strings, by code point, over character lists. -/
def lexLt : List Char → List Char → Bool
  | [], [] => false
  | [], _ :: _ => true
  | _ :: _, [] => false
  | a :: as, b :: bs =>
      if a.toNat < b.toNat then true
      else if a.toNat = b.toNat then lexLt as bs
      else false

/-- Numeric value of a list of decimal digit characters. -/
def natOfDigits (l : List Char) : Nat :=
  l.foldl (fun acc c => acc * 10 + (c.toNat - 48)) 0

/-- A stored quiz document (collection `quizzes`); fields the engine reads/writes. -/
structure Quiz where
  id : Nat
  question : String
  correct_option_id : Nat
  is_active : Bool
  sent_count : Nat
  manual_sent_count : Nat
  last_sent : Option String
deriving Repr, DecidableEq

/-- A registered group document (collection `groups`); fields the dispatcher touches. -/
structure Group where
  chat_id : Int
  is_active : Bool
  quizzes_received : Nat
  manual_quizzes_received : Nat
  last_activity : String
deriving Repr, DecidableEq

/-- The singleton stats document (`bot_stats`); counters the modelled paths touch. -/
structure Stats where
  total_quizzes_sent : Nat
  manual_quizzes_sent : Nat
  last_quiz_sent : Option String
  group_engagement : List (Int × Nat)
deriving Repr, DecidableEq

/-- A quiz report document (collection `quiz_reports`). -/
structure Report where
  id : Nat
  question : String
  status : String
  action_taken : String
  deleted_quizzes : Nat
  additional_deleted : Nat
  total_deleted : Nat
  action_time : Option String
deriving Repr, DecidableEq

/-- The in-memory bot state mirrored from the store: `self.quizzes`, `self.groups`,
`self.recently_sent_quizzes`, `self.stats`. -/
structure BotState where
  quizzes : List Quiz
  groups : List Group
  recently_sent : List Nat
  stats : Stats
deriving Repr, DecidableEq

/-- `self.max_recent_track = 10` (bot.py line 119). -/
def maxRecentTrack : Nat := 10

/-- Sort key used at bot.py line 226: `x.get('last_sent', '2000-01-01')`. -/
def sortKeyChars (q : Quiz) : List Char := (q.last_sent.getD "2000-01-01").data

/-- Insert a quiz into a list sorted by `sortKeyChars`, before the first element
with a strictly larger key: together with `sortByLastSent` this reproduces the
output of Python's stable `sorted(active_quizzes, key=...)`. -/
def insertByKey (x : Quiz) : List Quiz → List Quiz
  | [] => [x]
  | y :: ys =>
      if lexLt (sortKeyChars y) (sortKeyChars x) then y :: insertByKey x ys
      else x :: y :: ys

/-- Stable sort by `last_sent` (oldest first), as at bot.py lines 224-227. -/
def sortByLastSent (l : List Quiz) : List Quiz := l.foldr insertByKey []

set_option linter.unusedVariables false in
/-- `QuizBot.get_random_quiz` (bot.py lines 195-236).  `pick` is the
`random.choice` oracle: the chosen index modulo the length of the list the code
draws from.  The `exclude_recent_count` parameter is kept because the source
declares it; the body, like the source, never reads it. -/
def get_random_quiz (quizzes : List Quiz) (recent : List Nat) (pick : Nat)
    (exclude_recent_count : Nat) : Option Quiz :=
  if quizzes = [] then none
  else
    let active := quizzes.filter fun q => q.is_active
    if active = [] then none
    else if active.length ≤ 3 then active[pick % active.length]?
    else
      let recent2 :=
        if maxRecentTrack < recent.length then recent.drop (recent.length - maxRecentTrack)
        else recent
      let available := active.filter fun q => !(recent2.contains q.id)
      let available2 := if available = [] then sortByLastSent active else available
      if available2 = [] then active[pick % active.length]?
      else available2[pick % available2.length]?

/-- `QuizBot.track_recent_quiz` (bot.py lines 238-246): move-to-tail-or-append,
then trim to the last `maxRecentTrack` entries. -/
def track_recent_quiz (recent : List Nat) (quiz_id : Nat) : List Nat :=
  let r := if recent.contains quiz_id then recent.erase quiz_id else recent
  let r2 := r ++ [quiz_id]
  if maxRecentTrack < r2.length then r2.drop (r2.length - maxRecentTrack) else r2

/-- The number-and-remainder part of the regex at bot.py line 275:
`(\d*\.?\d+)` — returns the digits as a numerator, the count of fraction
digits, and the unconsumed suffix. -/
def parseNumber (s : List Char) : Option (Nat × Nat × List Char) :=
  let intPart := s.takeWhile Char.isDigit
  let rest := s.dropWhile Char.isDigit
  match rest with
  | '.' :: rest2 =>
      let frac := rest2.takeWhile Char.isDigit
      let rest3 := rest2.dropWhile Char.isDigit
      if frac = [] then none
      else some (natOfDigits (intPart ++ frac), frac.length, rest3)
  | _ => if intPart = [] then none else some (natOfDigits intPart, 0, rest)

/-- Python `time_str.lower().strip()` (bot.py line 272). -/
def pyNormalize (s : String) : List Char :=
  ((((s.data.map Char.toLower).dropWhile Char.isWhitespace).reverse).dropWhile
    Char.isWhitespace).reverse

/-- `QuizBot.parse_time_input` (bot.py lines 270-288): regex
`^(\d*\.?\d+)\s*([hm]|min|hr|hour|minute)?$`, default unit hours, minutes times
60, hours times 3600, result truncated to whole seconds.  The decimal value
`num / 10 ^ fracDigits` is multiplied and floored exactly. -/
def parse_time_input (time_str : String) : Option Nat :=
  let s := pyNormalize time_str
  match parseNumber s with
  | none => none
  | some (num, fracDigits, rest) =>
      let restTail := rest.dropWhile Char.isWhitespace
      let unit := if restTail = [] then ['h'] else restTail
      if unit = ['m'] ∨ unit = "min".data ∨ unit = "minute".data then
        some ((num * 60) / 10 ^ fracDigits)
      else if unit = ['h'] ∨ unit = "hr".data ∨ unit = "hour".data then
        some ((num * 3600) / 10 ^ fracDigits)
      else none

/-- The in-memory effect of a successful delivery on the group record
(bot.py lines 544-547): bump `quizzes_received`, refresh `last_activity`. -/
def deliverOk (now : String) (g : Group) : Group :=
  { g with
    quizzes_received := g.quizzes_received + 1
    last_activity := now }

/-- Engagement-tally update (bot.py lines 550-552): insert the chat id with 0 if
absent, then increment; a fresh key lands at the end of the mapping. -/
def bumpEngagement (m : List (Int × Nat)) (cid : Int) : List (Int × Nat) :=
  if m.any fun p => p.1 == cid then
    m.map fun p => if p.1 == cid then (p.1, p.2 + 1) else p
  else m ++ [(cid, 1)]

/-- `QuizBot.send_quiz_to_group` (bot.py lines 526-552) after the platform call
succeeded: group counter updates plus the engagement tally in Stats.  The
platform call itself is the dispatcher's failure oracle; on failure none of
these updates run, because the exception is raised before them. -/
def send_quiz_to_group (now : String) (g : Group) (st : Stats) : Group × Stats :=
  (deliverOk now g, { st with group_engagement := bumpEngagement st.group_engagement g.chat_id })

/-- The per-group dispatch loop of `QuizBot.send_random_quiz` (bot.py lines
502-517) over the already-filtered active groups.  `sendFails` is the delivery
oracle: a failing send raises before any group update, the `except` arm marks
the group inactive, and the loop continues; a successful send applies
`send_quiz_to_group` and increments `sent_to`.  Returns the updated groups (in
order), the updated stats, and `sent_to`. -/
def dispatchLoop (now : String) (sendFails : Int → Bool) :
    List Group → Stats → List Group × Stats × Nat
  | [], st => ([], st, 0)
  | g :: rest, st =>
      if sendFails g.chat_id then
        let out := dispatchLoop now sendFails rest st
        ({ g with is_active := false } :: out.1, out.2.1, out.2.2)
      else
        let gs := send_quiz_to_group now g st
        let out := dispatchLoop now sendFails rest gs.2
        (gs.1 :: out.1, out.2.1, out.2.2 + 1)

/-- `self.groups = self.load_groups()` after the loop (bot.py line 520): the
loop mutated the active groups' dicts in place (they are persisted with
`save_group`), so the reloaded full list is the old list with each active
group replaced positionally by its updated version. -/
def mergeGroups : List Group → List Group → List Group
  | [], _ => []
  | g :: rest, updated =>
      if g.is_active then
        match updated with
        | u :: us => u :: mergeGroups rest us
        | [] => g :: mergeGroups rest []
      else g :: mergeGroups rest updated

/-- Result of one scheduled dispatch batch: the new state and `sent_to`. -/
structure SendOutcome where
  state : BotState
  sentTo : Nat
deriving Repr, DecidableEq

/-- `QuizBot.send_random_quiz` (bot.py lines 476-524).  `pick` is the selector's
`random.choice` oracle, `sendFails` the per-group delivery oracle, and
`storeFails` makes the unguarded `save_quiz` store write at line 492 raise —
that call sits outside any try/except, so its failure propagates out of the
whole method.  The selector's defensive re-trim of the window only affects
membership tests and is modelled inside `get_random_quiz`; the window itself is
updated here via `track_recent_quiz`, as in the source. -/
def send_random_quiz (now : String) (pick : Nat) (sendFails : Int → Bool)
    (storeFails : Bool) (s : BotState) : Except String SendOutcome :=
  if s.quizzes = [] ∨ s.groups = [] then .ok ⟨s, 0⟩
  else
    match get_random_quiz s.quizzes s.recently_sent pick 8 with
    | none => .ok ⟨s, 0⟩
    | some quiz =>
        let quiz2 := { quiz with
          sent_count := quiz.sent_count + 1
          last_sent := some now }
        let quizzes2 := s.quizzes.map fun x => if x.id == quiz.id then quiz2 else x
        if storeFails then .error "store write failed"
        else
          let recent2 := track_recent_quiz s.recently_sent quiz.id
          let stats2 := { s.stats with
            total_quizzes_sent := s.stats.total_quizzes_sent + s.groups.length
            last_quiz_sent := some now }
          let activeGroups := s.groups.filter fun g => g.is_active
          let out := dispatchLoop now sendFails activeGroups stats2
          .ok ⟨⟨quizzes2, mergeGroups s.groups out.1, recent2, out.2.1⟩, out.2.2⟩

/-- One iteration of `QuizBot.start_scheduler` (bot.py lines 2226-2230): the
loop body is `await asyncio.sleep(...)` followed by `await self.send_random_quiz()`
with no exception handler, so any error escaping `send_random_quiz` escapes the
scheduler loop as well. -/
def scheduler_step (now : String) (pick : Nat) (sendFails : Int → Bool)
    (storeFails : Bool) (s : BotState) : Except String BotState :=
  (send_random_quiz now pick sendFails storeFails s).map fun o => o.state

/-- Result of `QuizBot.handle_delete_quiz`: updated reports and quizzes, the
exact-match deletion count, and the similar advisory list. -/
structure DeleteOutcome where
  reports : List Report
  quizzes : List Quiz
  deleted_count : Nat
  similar : List Quiz
deriving Repr, DecidableEq

/-- The quiz scan of `QuizBot.handle_delete_quiz` (bot.py lines 765-773):
exact case-insensitive question match deletes the quiz; otherwise a
case-insensitive substring match in either direction adds it to the similar
list.  Returns (surviving quizzes, deleted count, similar list). -/
def scanQuizzes (rq : List Char) : List Quiz → List Quiz × Nat × List Quiz
  | [] => ([], 0, [])
  | q :: rest =>
      let out := scanQuizzes rq rest
      if pyLower q.question == rq then (out.1, out.2.1 + 1, out.2.2)
      else if containsSub (pyLower q.question) rq || containsSub rq (pyLower q.question) then
        (q :: out.1, out.2.1, q :: out.2.2)
      else (q :: out.1, out.2.1, out.2.2)

/-- `QuizBot.handle_delete_quiz` (bot.py lines 749-783): fetch the report (early
return `none` if missing), scan and delete exact matches, collect similar
quizzes, then set the report's status to `deleted` with the action metadata.
The Stats bump and the Telegram reply (lines 785-817) are outside the modelled
store state. -/
def handle_delete_quiz (reports : List Report) (quizzes : List Quiz) (now : String)
    (report_id : Nat) : Option DeleteOutcome :=
  match reports.find? fun r => r.id == report_id with
  | none => none
  | some report =>
      let scanned := scanQuizzes (pyLower report.question) quizzes
      let reports2 := reports.map fun r =>
        if r.id == report_id then
          { r with
            status := "deleted"
            action_taken := "quiz_deleted"
            deleted_quizzes := scanned.2.1
            action_time := some now }
        else r
      some ⟨reports2, scanned.1, scanned.2.1, scanned.2.2⟩

/-- The similarity rule of `QuizBot.handle_delete_similar_quizzes` (bot.py lines
836-837): case-insensitive substring containment in either direction. -/
def isSimilar (rq : List Char) (q : Quiz) : Bool :=
  containsSub (pyLower q.question) rq || containsSub rq (pyLower q.question)

/-- `QuizBot.handle_delete_similar_quizzes` (bot.py lines 819-848): fetch the
report (early return `none` if missing), delete every quiz matching the
substring rule, record `additional_deleted` and cumulative `total_deleted` on
the report; the report's `status` field is not written. -/
def handle_delete_similar_quizzes (reports : List Report) (quizzes : List Quiz)
    (now : String) (report_id : Nat) : Option (List Report × List Quiz × Nat) :=
  match reports.find? fun r => r.id == report_id with
  | none => none
  | some report =>
      let rq := pyLower report.question
      let deleted := (quizzes.filter fun q => isSimilar rq q).length
      let quizzes2 := quizzes.filter fun q => !(isSimilar rq q)
      let reports2 := reports.map fun r =>
        if r.id == report_id then
          { r with
            additional_deleted := deleted
            total_deleted := report.deleted_quizzes + deleted
            action_time := some now }
        else r
      some (reports2, quizzes2, deleted)

/-- `QuizBot.handle_ignore_report` (bot.py lines 869-888): a bare `update_one`
setting the status to `ignored` — there is no existence or prior-status check,
and a missing id makes the update a no-op. -/
def handle_ignore_report (reports : List Report) (now : String) (report_id : Nat) :
    List Report :=
  reports.map fun r =>
    if r.id == report_id then
      { r with
        status := "ignored"
        action_taken := "ignored"
        action_time := some now }
    else r

/-! Helper lemmas. -/

theorem mem_of_getElem2 {α : Type} {l : List α} {i : Nat} {x : α}
    (h : l[i]? = some x) : x ∈ l := by
  have h2 : l.get? i = some x := by rw [List.get?_eq_getElem?]; exact h
  exact List.get?_mem h2

theorem mem_insertByKey {a x : Quiz} {l : List Quiz} :
    a ∈ insertByKey x l ↔ a = x ∨ a ∈ l := by
  induction l with
  | nil => simp [insertByKey]
  | cons y ys ih =>
      unfold insertByKey
      split
      all_goals simp only [List.mem_cons, ih] <;> tauto

theorem length_insertByKey (x : Quiz) (l : List Quiz) :
    (insertByKey x l).length = l.length + 1 := by
  induction l with
  | nil => rfl
  | cons y ys ih =>
      unfold insertByKey
      split
      · simp [ih]
      · simp

theorem mem_sortByLastSent {a : Quiz} {l : List Quiz} :
    a ∈ sortByLastSent l ↔ a ∈ l := by
  induction l with
  | nil => simp [sortByLastSent]
  | cons x xs ih =>
      show a ∈ insertByKey x (sortByLastSent xs) ↔ _
      rw [mem_insertByKey, ih]
      simp

theorem length_sortByLastSent (l : List Quiz) :
    (sortByLastSent l).length = l.length := by
  induction l with
  | nil => rfl
  | cons x xs ih =>
      show (insertByKey x (sortByLastSent xs)).length = _
      rw [length_insertByKey, ih]
      simp

/-- Every quiz returned by the selector is an active member of the pool. -/
theorem get_random_quiz_mem {quizzes : List Quiz} {recent : List Nat} {pick c : Nat}
    {q : Quiz} (h : get_random_quiz quizzes recent pick c = some q) :
    q ∈ quizzes ∧ q.is_active = true := by
  have factive : ∀ x : Quiz, x ∈ quizzes.filter (fun q => q.is_active) →
      x ∈ quizzes ∧ x.is_active = true := by
    intro x hx
    exact ⟨List.mem_of_mem_filter hx, List.of_mem_filter hx⟩
  simp only [get_random_quiz] at h
  repeat' split at h
  all_goals
    first
      | exact factive q (mem_of_getElem2 h)
      | exact factive q (mem_sortByLastSent.mp (mem_of_getElem2 h))
      | exact factive q (List.mem_of_mem_filter (mem_of_getElem2 h))
      | simp at h

/-- The trim-to-capacity stage of `track_recent_quiz` keeps the appended tail. -/
theorem trimAppend_getLast (r : List Nat) (i : Nat) :
    (if maxRecentTrack < (r ++ [i]).length then
      (r ++ [i]).drop ((r ++ [i]).length - maxRecentTrack)
    else r ++ [i]).getLast? = some i := by
  split
  · next h =>
      rw [List.drop_append_of_le_length]
      · simp [List.getLast?_append]
      · simp only [List.length_append, List.length_singleton, maxRecentTrack] at h ⊢
        omega
  · simp [List.getLast?_append]

/-- The trim-to-capacity stage of `track_recent_quiz` bounds the length. -/
theorem trimAppend_length (r : List Nat) (i : Nat) :
    (if maxRecentTrack < (r ++ [i]).length then
      (r ++ [i]).drop ((r ++ [i]).length - maxRecentTrack)
    else r ++ [i]).length ≤ maxRecentTrack := by
  split
  · next h =>
      simp only [List.length_drop]
      omega
  · next h => omega

/-- The trim-to-capacity stage of `track_recent_quiz` preserves distinctness. -/
theorem trimAppend_nodup {r : List Nat} {i : Nat} (h2 : (r ++ [i]).Nodup) :
    (if maxRecentTrack < (r ++ [i]).length then
      (r ++ [i]).drop ((r ++ [i]).length - maxRecentTrack)
    else r ++ [i]).Nodup := by
  split
  · exact h2.sublist (List.drop_sublist _ _)
  · exact h2

/-- The window after `track_recent_quiz` always ends with the id just tracked. -/
theorem track_recent_quiz_getLast (l : List Nat) (i : Nat) :
    (track_recent_quiz l i).getLast? = some i := by
  simp only [track_recent_quiz]
  exact trimAppend_getLast _ i

/-- The window after `track_recent_quiz` never exceeds the capacity constant. -/
theorem track_recent_quiz_length (l : List Nat) (i : Nat) :
    (track_recent_quiz l i).length ≤ maxRecentTrack := by
  simp only [track_recent_quiz]
  exact trimAppend_length _ i

/-- `track_recent_quiz` preserves distinctness of the window's ids. -/
theorem track_recent_quiz_nodup {l : List Nat} (hl : l.Nodup) (i : Nat) :
    (track_recent_quiz l i).Nodup := by
  simp only [track_recent_quiz]
  have hr : (if l.contains i then l.erase i else l).Nodup ∧
      i ∉ (if l.contains i then l.erase i else l) := by
    split
    · exact ⟨hl.erase i, by simp [List.Nodup.mem_erase_iff hl]⟩
    · next h =>
        refine ⟨hl, ?_⟩
        simp only [List.elem_eq_mem, decide_eq_true_eq] at h
        exact h
  exact trimAppend_nodup
    (hr.1.append (List.nodup_singleton i) (List.disjoint_singleton.mpr hr.2))

/-- The dispatch loop's success count is the number of groups whose send
succeeded, independent of the stats accumulator. -/
theorem dispatchLoop_count (now : String) (sendFails : Int → Bool) (gs : List Group)
    (st : Stats) :
    (dispatchLoop now sendFails gs st).2.2 =
      (gs.filter fun g => !(sendFails g.chat_id)).length := by
  induction gs generalizing st with
  | nil => rfl
  | cons g rest ih =>
      unfold dispatchLoop
      by_cases h : sendFails g.chat_id
      · simp [h, ih]
      · simp [h, ih]

/-- The dispatch loop never touches the global dispatched counter. -/
theorem dispatchLoop_total (now : String) (sendFails : Int → Bool) (gs : List Group)
    (st : Stats) :
    (dispatchLoop now sendFails gs st).2.1.total_quizzes_sent = st.total_quizzes_sent := by
  induction gs generalizing st with
  | nil => rfl
  | cons g rest ih =>
      unfold dispatchLoop
      by_cases h : sendFails g.chat_id
      · simp [h, ih]
      · simp [h, ih, send_quiz_to_group]

/-- The dispatch loop processes every group in order: a failing group is
returned with its active flag cleared and nothing else changed, a succeeding
group is returned with its delivery counters updated. -/
theorem dispatchLoop_groups (now : String) (sendFails : Int → Bool) (gs : List Group)
    (st : Stats) :
    List.Forall₂
      (fun g g2 => g2 =
        if sendFails g.chat_id then { g with is_active := false } else deliverOk now g)
      gs (dispatchLoop now sendFails gs st).1 := by
  induction gs generalizing st with
  | nil => exact List.Forall₂.nil
  | cons g rest ih =>
      unfold dispatchLoop
      by_cases h : sendFails g.chat_id
      · simp only [h, if_true]
        exact List.Forall₂.cons (by simp [h]) (ih st)
      · simp only [h, if_false]
        exact List.Forall₂.cons (by simp [h, send_quiz_to_group]) (ih _)

/-! Concrete fixtures used by counterexamples and witnesses. -/

/-- Active quiz A, oldest `last_sent` in the C1 pool. -/
def pqA : Quiz := ⟨1, "A", 0, true, 0, 0, some "2001-01-01"⟩

/-- Active quiz B. -/
def pqB : Quiz := ⟨2, "B", 0, true, 0, 0, some "2002-01-01"⟩

/-- Active quiz C. -/
def pqC : Quiz := ⟨3, "C", 0, true, 0, 0, some "2003-01-01"⟩

/-- Active quiz D, newest `last_sent` in the C1 pool. -/
def pqD : Quiz := ⟨4, "D", 0, true, 0, 0, some "2004-01-01"⟩

/-- A pool of four active quizzes whose ids 1-4 all sit in the recent window. -/
def poolC1 : List Quiz := [pqA, pqB, pqC, pqD]

/-- Fresh stats fixture: all counters zero. -/
def stZero : Stats := ⟨0, 0, none, []⟩

/-- An active group with the given chat id and zeroed counters. -/
def gActive (i : Int) : Group := ⟨i, true, 0, 0, ""⟩

/-- An inactive group fixture with chat id 2. -/
def gInactive : Group := ⟨2, false, 0, 0, ""⟩

/-- A single active quiz fixture. -/
def qSingle : Quiz := ⟨1, "q", 0, true, 0, 0, none⟩

/-- A small bot state: one quiz, one active and one inactive group, empty
window, zeroed stats. -/
def sSmall : BotState := ⟨[qSingle], [gActive 1, gInactive], [], stZero⟩

/-- Unfolding equation for `send_random_quiz` when a quiz is selected and the
store write succeeds: the quiz and window mutations happen once, the global
counter is bumped by the number of all known groups, and the dispatch loop
runs over the active groups. -/
theorem send_random_quiz_eq {now : String} {pick : Nat} {sendFails : Int → Bool}
    {s : BotState} {q : Quiz} (hq : s.quizzes ≠ []) (hg : s.groups ≠ [])
    (hsel : get_random_quiz s.quizzes s.recently_sent pick 8 = some q) :
    send_random_quiz now pick sendFails false s =
      .ok ⟨⟨s.quizzes.map fun x =>
              if x.id == q.id then
                { q with sent_count := q.sent_count + 1, last_sent := some now }
              else x,
            mergeGroups s.groups
              (dispatchLoop now sendFails (s.groups.filter fun g => g.is_active)
                { s.stats with
                  total_quizzes_sent := s.stats.total_quizzes_sent + s.groups.length
                  last_quiz_sent := some now }).1,
            track_recent_quiz s.recently_sent q.id,
            (dispatchLoop now sendFails (s.groups.filter fun g => g.is_active)
              { s.stats with
                total_quizzes_sent := s.stats.total_quizzes_sent + s.groups.length
                last_quiz_sent := some now }).2.1⟩,
          (dispatchLoop now sendFails (s.groups.filter fun g => g.is_active)
            { s.stats with
              total_quizzes_sent := s.stats.total_quizzes_sent + s.groups.length
              last_quiz_sent := some now }).2.2⟩ := by
  simp only [send_random_quiz]
  rw [if_neg (by tauto), hsel]
  rfl

/-! Claim theorems. -/

/-- C1 (counterexample): with the pool {A,B,C,D} (ids 1-4, `last_sent`
2001..2004), a recent window [1,2,3,4] covering the whole pool, and the
`random.choice` oracle picking index 3, `get_random_quiz` returns quiz D,
whose `last_sent` is strictly greater than pool member A's: the returned quiz
is not in the minimum-timestamp subset, because the code draws uniformly from
the whole sorted list rather than from the minimal prefix. -/
theorem C1_counterexample :
    get_random_quiz poolC1 [1, 2, 3, 4] 3 8 = some pqD ∧
    pqA ∈ poolC1.filter (fun q => q.is_active) ∧
    lexLt (sortKeyChars pqA) (sortKeyChars pqD) = true ∧
    pqD.last_sent = some "2004-01-01" ∧ pqA.last_sent = some "2001-01-01" := by
  refine ⟨by decide, by decide, by decide, rfl, rfl⟩

/-- C1 (amended): for every pool of active quizzes with more than 3 elements
whose ids are all contained in the recent-sent window (which is within its
capacity), `get_random_quiz` falls back to the pool sorted by `last_sent`
(missing timestamps getting the epoch sentinel `2000-01-01`) but then draws
uniformly from the whole sorted pool, so the returned quiz is guaranteed to be
a member of the active pool — not of the minimum-timestamp subset. -/
theorem C1_fallback_membership :
    ∀ (quizzes : List Quiz) (recent : List Nat) (pick : Nat),
      3 < (quizzes.filter fun q => q.is_active).length →
      recent.length ≤ maxRecentTrack →
      (∀ q ∈ quizzes.filter fun q => q.is_active, q.id ∈ recent) →
      ∃ q, get_random_quiz quizzes recent pick 8 = some q ∧
        q ∈ quizzes.filter fun q => q.is_active := by
  intro quizzes recent pick h3 hlen hcov
  have hqne : ¬(quizzes = []) := by
    intro he
    rw [he] at h3
    simp at h3
  have hane : ¬(quizzes.filter fun q => q.is_active) = [] := by
    intro he
    rw [he] at h3
    simp at h3
  have hnotle : ¬((quizzes.filter fun q => q.is_active).length ≤ 3) := by omega
  have hnottrim : ¬(maxRecentTrack < recent.length) := by omega
  have hav : (quizzes.filter fun q => q.is_active).filter
      (fun q => !(recent.contains q.id)) = [] := by
    rw [List.filter_eq_nil_iff]
    intro a ha
    have hmem := hcov a ha
    simp [List.elem_eq_mem, hmem]
  have hslen : (sortByLastSent (quizzes.filter fun q => q.is_active)).length =
      (quizzes.filter fun q => q.is_active).length := length_sortByLastSent _
  have hsne : ¬(sortByLastSent (quizzes.filter fun q => q.is_active)) = [] := by
    intro he
    rw [he] at hslen
    simp at hslen
    omega
  have hpos : 0 < (sortByLastSent (quizzes.filter fun q => q.is_active)).length := by
    rw [hslen]; omega
  have hlt : pick % (sortByLastSent (quizzes.filter fun q => q.is_active)).length <
      (sortByLastSent (quizzes.filter fun q => q.is_active)).length :=
    Nat.mod_lt _ hpos
  refine ⟨(sortByLastSent (quizzes.filter fun q => q.is_active)).get ⟨_, hlt⟩, ?_, ?_⟩
  · simp only [get_random_quiz]
    rw [if_neg hqne, if_neg hane, if_neg hnotle]
    simp only [if_neg hnottrim]
    rw [hav, if_pos (rfl : ([] : List Quiz) = []), if_neg hsne,
      List.getElem?_eq_getElem hlt, List.get_eq_getElem]
  · exact mem_sortByLastSent.mp (List.get_mem _ _ hlt)

/-- C1 (witness): the amended membership theorem applied to the concrete
four-quiz pool with a full recent window. -/
theorem C1_fallback_membership_witness :
    ∃ q, get_random_quiz poolC1 [1, 2, 3, 4] 0 8 = some q ∧
      q ∈ poolC1.filter fun q => q.is_active :=
  C1_fallback_membership poolC1 [1, 2, 3, 4] 0 (by decide) (by decide) (by decide)

/-- C7: across any sequence of `track_recent_quiz` calls starting from the
empty window, the window stays within the capacity constant 10, holds no
duplicate ids, and after each call the id just tracked is at the tail. -/
theorem C7_window_invariant :
    ∀ ids : List Nat,
      (ids.foldl track_recent_quiz []).length ≤ maxRecentTrack ∧
      (ids.foldl track_recent_quiz []).Nodup ∧
      ∀ i : Nat, ((ids ++ [i]).foldl track_recent_quiz []).getLast? = some i := by
  have hlen : ∀ (ids : List Nat) (l : List Nat), l.length ≤ maxRecentTrack →
      (ids.foldl track_recent_quiz l).length ≤ maxRecentTrack := by
    intro ids
    induction ids with
    | nil => intro l hl; exact hl
    | cons i rest ih =>
        intro l hl
        rw [List.foldl_cons]
        exact ih _ (track_recent_quiz_length l i)
  have hnd : ∀ (ids : List Nat) (l : List Nat), l.Nodup →
      (ids.foldl track_recent_quiz l).Nodup := by
    intro ids
    induction ids with
    | nil => intro l hl; exact hl
    | cons i rest ih =>
        intro l hl
        rw [List.foldl_cons]
        exact ih _ (track_recent_quiz_nodup hl i)
  intro ids
  refine ⟨hlen ids [] (by simp [maxRecentTrack]), hnd ids [] List.nodup_nil, ?_⟩
  intro i
  rw [List.foldl_append, List.foldl_cons, List.foldl_nil]
  exact track_recent_quiz_getLast _ i

/-- C10: `get_random_quiz` never reads its `exclude_recent_count` argument, so
any two values of it — in particular the scheduled path's 8 and the manual
path's 5 — yield identical selections on every pool, window and oracle. -/
theorem C10_exclude_recent_count_unused :
    (∀ (quizzes : List Quiz) (recent : List Nat) (pick c1 c2 : Nat),
      get_random_quiz quizzes recent pick c1 = get_random_quiz quizzes recent pick c2) ∧
    ∀ (quizzes : List Quiz) (recent : List Nat) (pick : Nat),
      get_random_quiz quizzes recent pick 8 = get_random_quiz quizzes recent pick 5 :=
  ⟨fun _ _ _ _ _ => rfl, fun _ _ _ => rfl⟩

/-- C3: for every dispatch batch, the success count equals the number of groups
whose send succeeded, every group in the list is processed in order (a failure
never aborts the batch), a failing group is returned with only its active flag
cleared, and a succeeding group keeps its flags and gains its delivery counter;
instantiated on the spec's 5-group scenario with group 3 failing: 4 successes
and only group 3 inactive. -/
theorem C3_failure_isolation :
    (∀ (now : String) (sendFails : Int → Bool) (gs : List Group) (st : Stats),
      (dispatchLoop now sendFails gs st).2.2 =
        (gs.filter fun g => !(sendFails g.chat_id)).length ∧
      List.Forall₂ (fun g g2 => g2 =
          if sendFails g.chat_id then { g with is_active := false } else deliverOk now g)
        gs (dispatchLoop now sendFails gs st).1) ∧
    (dispatchLoop "t" (fun c => c == 3)
      [gActive 1, gActive 2, gActive 3, gActive 4, gActive 5] stZero).2.2 = 4 ∧
    ((dispatchLoop "t" (fun c => c == 3)
      [gActive 1, gActive 2, gActive 3, gActive 4, gActive 5] stZero).1.map
        fun g => (g.chat_id, g.is_active)) =
      [(1, true), (2, true), (3, false), (4, true), (5, true)] :=
  ⟨fun now f gs st => ⟨dispatchLoop_count now f gs st, dispatchLoop_groups now f gs st⟩,
   by decide, by decide⟩

/-- C2 (counterexample): on a state with one active quiz, one active group and
one inactive group where the only delivery fails, the batch reports 0
successes yet `total_quizzes_sent` grows from 0 to 2 — i.e. by the number of
all known groups, not by the success count, and the bump happens before the
loop. -/
theorem C2_counterexample :
    (send_random_quiz "t" 0 (fun _ => true) false sSmall).map
      (fun o => (o.state.stats.total_quizzes_sent, o.sentTo)) = Except.ok (2, 0) ∧
    sSmall.stats.total_quizzes_sent = 0 ∧ sSmall.groups.length = 2 ∧ (2 : Nat) ≠ 0 :=
  ⟨rfl, rfl, rfl, by decide⟩

/-- C2 (amended): in every scheduled batch that selects a quiz, the global
`total_quizzes_sent` counter is incremented exactly once, but before any
delivery is attempted and by the number of all known groups (active or not),
independent of how many sends succeed. -/
theorem C2_amended_increment :
    ∀ (now : String) (pick : Nat) (sendFails : Int → Bool) (s : BotState) (q : Quiz),
      s.quizzes ≠ [] → s.groups ≠ [] →
      get_random_quiz s.quizzes s.recently_sent pick 8 = some q →
      ∃ out, send_random_quiz now pick sendFails false s = .ok out ∧
        out.state.stats.total_quizzes_sent =
          s.stats.total_quizzes_sent + s.groups.length := by
  intro now pick f s q hq hg hsel
  refine ⟨_, send_random_quiz_eq hq hg hsel, ?_⟩
  exact dispatchLoop_total now f _ _

/-- C2 (witness): the amended increment theorem applied to the concrete small
state with an all-failing delivery oracle. -/
theorem C2_amended_increment_witness :
    ∃ out, send_random_quiz "t" 0 (fun _ => true) false sSmall = .ok out ∧
      out.state.stats.total_quizzes_sent =
        sSmall.stats.total_quizzes_sent + sSmall.groups.length :=
  C2_amended_increment "t" 0 (fun _ => true) sSmall qSingle (by decide) (by decide)
    (by decide)

/-- C5 (counterexample): a store-write failure while persisting the selected
quiz is not caught anywhere on the scheduled path, so the scheduler step
surfaces the error instead of completing the cycle: one failing dispatch cycle
terminates the scheduler loop. -/
theorem C5_counterexample :
    scheduler_step "t" 0 (fun _ => false) true sSmall =
      Except.error "store write failed" ∧
    (scheduler_step "t" 0 (fun _ => false) true sSmall).isOk = false :=
  ⟨rfl, rfl⟩

/-- C5 (amended): only per-group delivery errors are caught (inside the
dispatch loop), so when the store writes succeed the scheduler step completes
for every state and every delivery oracle — but the loop itself has no error
handler, so an error outside the per-group try (such as the store write)
propagates and terminates it. -/
theorem C5_amended_delivery_errors_contained :
    ∀ (now : String) (pick : Nat) (sendFails : Int → Bool) (s : BotState),
      ∃ s2, scheduler_step now pick sendFails false s = .ok s2 := by
  intro now pick f s
  unfold scheduler_step
  by_cases h1 : s.quizzes = [] ∨ s.groups = []
  · refine ⟨s, ?_⟩
    simp only [send_random_quiz, if_pos h1]
    rfl
  · cases hsel : get_random_quiz s.quizzes s.recently_sent pick 8 with
    | none =>
        refine ⟨s, ?_⟩
        simp only [send_random_quiz, if_neg h1, hsel]
        rfl
    | some q =>
        rw [send_random_quiz_eq (not_or.mp h1).1 (not_or.mp h1).2 hsel]
        exact ⟨_, rfl⟩

/-- C9: whenever a scheduled batch selects a quiz, the quiz's `sent_count` is
incremented, its `last_sent` is set to the dispatch time, and its id lands at
the tail of the recent-sent window — all before any delivery is attempted, so
the mutations persist even when delivery to every group fails (success count
0). -/
theorem C9_mutations_before_dispatch :
    ∀ (now : String) (pick : Nat) (sendFails : Int → Bool) (s : BotState) (q : Quiz),
      s.quizzes ≠ [] → s.groups ≠ [] →
      get_random_quiz s.quizzes s.recently_sent pick 8 = some q →
      ∃ out, send_random_quiz now pick sendFails false s = .ok out ∧
        { q with sent_count := q.sent_count + 1, last_sent := some now }
          ∈ out.state.quizzes ∧
        out.state.recently_sent.getLast? = some q.id ∧
        ((∀ c : Int, sendFails c = true) → out.sentTo = 0) := by
  intro now pick f s q hq hg hsel
  refine ⟨_, send_random_quiz_eq hq hg hsel, ?_, ?_, ?_⟩
  · refine List.mem_map.mpr ⟨q, (get_random_quiz_mem hsel).1, ?_⟩
    simp
  · exact track_recent_quiz_getLast _ _
  · intro hall
    have hnil : (s.groups.filter fun g => g.is_active).filter
        (fun g => !(f g.chat_id)) = [] := by
      rw [List.filter_eq_nil_iff]
      intro a ha
      simp [hall a.chat_id]
    show (dispatchLoop now f _ _).2.2 = 0
    rw [dispatchLoop_count, hnil]
    rfl

/-- C9 (witness): the mutation theorem applied to the concrete small state with
an all-failing delivery oracle. -/
theorem C9_mutations_before_dispatch_witness :
    ∃ out, send_random_quiz "t" 0 (fun _ => true) false sSmall = .ok out ∧
      { qSingle with sent_count := qSingle.sent_count + 1, last_sent := some "t" }
        ∈ out.state.quizzes ∧
      out.state.recently_sent.getLast? = some qSingle.id ∧
      ((∀ c : Int, (fun _ : Int => true) c = true) → out.sentTo = 0) :=
  C9_mutations_before_dispatch "t" 0 (fun _ => true) sSmall qSingle (by decide)
    (by decide) (by decide)

/-- A report that was already resolved as ignored. -/
def rIgnored : Report := ⟨1, "q", "ignored", "ignored", 0, 0, 0, none⟩

/-- The outcome of `handle_delete_similar_quizzes` on `[rIgnored]` and no quizzes. -/
def dsOut : List Report × List Quiz × Nat :=
  ([⟨1, "q", "ignored", "ignored", 0, 0, 0, some "t"⟩], [], 0)

/-- The outcome of `handle_delete_quiz` on `[rIgnored]` and no quizzes. -/
def dqOut : DeleteOutcome :=
  ⟨[⟨1, "q", "deleted", "quiz_deleted", 0, 0, 0, some "t"⟩], [], 0, []⟩

/-- C4 (counterexample): `handle_delete_quiz` resolves a report whose status is
already `ignored` and flips it to `deleted` — the resolution operations never
check the prior status, so `ignored` is not a terminal state. -/
theorem C4_counterexample :
    rIgnored.status = "ignored" ∧
    (handle_delete_quiz [rIgnored] [] "t" 1).map
      (fun o => o.reports.map Report.status) = some ["deleted"] ∧
    ("deleted" : String) ≠ "ignored" :=
  ⟨rfl, rfl, by decide⟩

/-- C4 (amended): no resolution operation inspects the report's prior status:
`resolveDeleteSimilar` leaves every status unchanged, while `resolveDelete`
and `resolveIgnore` unconditionally overwrite the matched report's status with
`deleted` resp. `ignored` — so `deleted` and `ignored` are not terminal
states; each can be overwritten by the other resolution. -/
theorem C4_amended_status_overwrite :
    ∀ (reports : List Report) (quizzes : List Quiz) (now : String) (rid : Nat),
      (∀ out, handle_delete_similar_quizzes reports quizzes now rid = some out →
        out.1.map Report.status = reports.map Report.status) ∧
      (∀ out, handle_delete_quiz reports quizzes now rid = some out →
        out.reports.map (fun r => (r.id, r.status)) =
          reports.map fun r => (r.id, if r.id == rid then "deleted" else r.status)) ∧
      (handle_ignore_report reports now rid).map (fun r => (r.id, r.status)) =
        reports.map fun r => (r.id, if r.id == rid then "ignored" else r.status) := by
  intro reports quizzes now rid
  refine ⟨?_, ?_, ?_⟩
  · intro out hout
    unfold handle_delete_similar_quizzes at hout
    cases hfind : reports.find? fun r => r.id == rid with
    | none =>
        rw [hfind] at hout
        exact absurd hout (by simp)
    | some report =>
        rw [hfind] at hout
        have hx := Option.some.inj hout
        subst hx
        rw [List.map_map]
        apply List.map_congr_left
        intro r _
        by_cases h : r.id = rid <;> simp [h]
  · intro out hout
    unfold handle_delete_quiz at hout
    cases hfind : reports.find? fun r => r.id == rid with
    | none =>
        rw [hfind] at hout
        exact absurd hout (by simp)
    | some report =>
        rw [hfind] at hout
        have hx := Option.some.inj hout
        subst hx
        rw [List.map_map]
        apply List.map_congr_left
        intro r _
        by_cases h : r.id = rid <;> simp [h]
  · unfold handle_ignore_report
    rw [List.map_map]
    apply List.map_congr_left
    intro r _
    by_cases h : r.id = rid <;> simp [h]

/-- C4 (witness): the amended status theorem applied to the store holding only
the already-ignored report. -/
theorem C4_amended_status_overwrite_witness :
    dsOut.1.map Report.status = [rIgnored].map Report.status ∧
    dqOut.reports.map (fun r => (r.id, r.status)) =
      [rIgnored].map (fun r => (r.id, if r.id == 1 then "deleted" else r.status)) ∧
    (handle_ignore_report [rIgnored] "t" 1).map (fun r => (r.id, r.status)) =
      [rIgnored].map fun r => (r.id, if r.id == 1 then "ignored" else r.status) := by
  have h := C4_amended_status_overwrite [rIgnored] [] "t" 1
  exact ⟨h.1 dsOut (by decide), h.2.1 dqOut (by decide), h.2.2⟩

/-- The quiz whose question matches the C6 report exactly (up to case). -/
def qExact : Quiz := ⟨1, "What is 2+2?", 0, true, 0, 0, none⟩

/-- The quiz whose question differs from the C6 report by spacing. -/
def qSpaced : Quiz := ⟨2, "what is 2 + 2??", 0, true, 0, 0, none⟩

/-- The C6 report for question \"What is 2+2?\". -/
def rMath : Report := ⟨7, "What is 2+2?", "pending", "", 0, 0, 0, none⟩

/-- C6 (counterexample): resolving the report \"What is 2+2?\" against the store
containing \"What is 2+2?\" and \"what is 2 + 2??\" deletes exactly the first
quiz, but the similar advisory list comes back empty — the second quiz is NOT
listed, because neither lowercased question is a substring of the other
(\"2+2\" versus \"2 + 2\"). -/
theorem C6_counterexample :
    (handle_delete_quiz [rMath] [qExact, qSpaced] "t" 7).map
      (fun o => (o.deleted_count, o.similar)) = some (1, []) ∧
    qExact.question = "What is 2+2?" ∧ qSpaced.question = "what is 2 + 2??" ∧
    rMath.question = "What is 2+2?" :=
  ⟨by decide, rfl, rfl, rfl⟩

/-- C6 (amended): on the scenario store, `resolveDelete` deletes the first quiz
(case-insensitive exact match, count 1), leaves the second quiz in the store
undeleted, marks the report `deleted`, and returns an empty similar list: the
substring rule fires in neither direction for \"what is 2+2?\" versus
\"what is 2 + 2??\". -/
theorem C6_amended_resolution :
    (handle_delete_quiz [rMath] [qExact, qSpaced] "t" 7).map
      (fun o => (o.deleted_count, o.quizzes, o.similar, o.reports.map Report.status)) =
      some (1, [qSpaced], [], ["deleted"]) ∧
    containsSub (pyLower qSpaced.question) (pyLower rMath.question) = false ∧
    containsSub (pyLower rMath.question) (pyLower qSpaced.question) = false :=
  ⟨by decide, by decide, by decide⟩

/-- C8: `parse_time_input` maps \"2h\" to 7200 seconds, \"90m\" to 5400,
\"1.5h\" to 5400, \"2\" to 7200 (absent unit defaults to hours), recognizes
exactly the unit spellings h/hr/hour and m/min/minute, rejects \"abc\" and
every other input whose normalized form does not decompose into a decimal
number followed by an optional recognized unit, and truncates every result to
whole seconds (e.g. 1.02 minutes = 61.2 seconds parses to 61). -/
theorem C8_parse_time_input :
    (∀ (s : String) (n : Nat), parse_time_input s = some n →
      ∃ num fd rest, parseNumber (pyNormalize s) = some (num, fd, rest) ∧
        rest.dropWhile Char.isWhitespace ∈
          ([[], ['h'], ['m'], "hr".data, "min".data, "hour".data, "minute".data] :
            List (List Char))) ∧
    parse_time_input "2h" = some 7200 ∧
    parse_time_input "90m" = some 5400 ∧
    parse_time_input "1.5h" = some 5400 ∧
    parse_time_input "2" = some 7200 ∧
    parse_time_input "2hr" = some 7200 ∧
    parse_time_input "2hour" = some 7200 ∧
    parse_time_input "90min" = some 5400 ∧
    parse_time_input "90minute" = some 5400 ∧
    parse_time_input "abc" = none ∧
    parse_time_input "2x" = none ∧
    parse_time_input "x2" = none ∧
    parse_time_input "" = none ∧
    parse_time_input "2." = none ∧
    parse_time_input "1.02m" = some 61 ∧
    parse_time_input "0.001h" = some 3 := by
  refine ⟨?_, by decide, by decide, by decide, by decide, by decide, by decide,
    by decide, by decide, by decide, by decide, by decide, by decide, by decide,
    by decide, by decide⟩
  intro s n h
  simp only [parse_time_input] at h
  cases hpn : parseNumber (pyNormalize s) with
  | none =>
      rw [hpn] at h
      exact absurd h (by simp)
  | some t =>
      obtain ⟨num, fd, rest⟩ := t
      rw [hpn] at h
      refine ⟨num, fd, rest, rfl, ?_⟩
      by_cases hrt : rest.dropWhile Char.isWhitespace = []
      · simp [hrt]
      · simp only [if_neg hrt] at h
        split at h
        · next hc =>
            rcases hc with hc | hc | hc <;> simp [hc]
        · split at h
          · next hc =>
              rcases hc with hc | hc | hc <;> simp [hc]
          · exact absurd h (by simp)

/-- C8 (witness): the rejection-shape component applied to the accepted input
\"2h\". -/
theorem C8_parse_time_input_witness :
    ∃ num fd rest, parseNumber (pyNormalize "2h") = some (num, fd, rest) ∧
      rest.dropWhile Char.isWhitespace ∈
        ([[], ['h'], ['m'], "hr".data, "min".data, "hour".data, "minute".data] :
          List (List Char)) :=
  C8_parse_time_input.1 "2h" 7200 (by decide)

end QuizBot
